import Mathlib

/-!
Shallow embedding of the storage / transaction / recovery core of the
rucbase-style relational engine (record heap, B+-tree index, lock manager,
log manager, transaction manager, recovery analyze pass, seq-scan executor
and portal), translated from the C++ sources, together with theorems that
settle the specification claims against the code.

C++ `int` quantities that can legitimately be negative (page numbers,
slot numbers, LSNs, transaction ids) are modelled as `Int`; byte counts
and lengths are modelled as `Nat`.  None of the claims is near 32-bit
overflow, so machine wrap-around is not modelled.
-/

namespace Rucbase

/-- Record identifier `(page_no, slot_no)`, from `common.h` / `rm_defs.h`
usage in the sources (`Rid{page_no, slot_no}`). -/
structure Rid where
  page_no : Int
  slot_no : Int
deriving DecidableEq, Repr

/-! ## Log manager (`src/src/recovery/log_manager.cpp`) -/

/-- Log record types, from the spec's log-record taxonomy (BEGIN, COMMIT,
ABORT, INSERT, DELETE, UPDATE); the `LogType` enum itself is declared in
`log_manager.h`, which is not among the provided sources. -/
inductive LogType where
  | begin_
  | commit
  | abort
  | insert
  | update
  | delete_
deriving DecidableEq, Repr

/-- Common header data of a log record `{log_type, tot_len, lsn, txn_id,
prev_lsn}`; payloads are irrelevant to the log-manager claims. -/
structure LogRecord where
  log_type : LogType
  log_tot_len : Nat
  lsn : Int
  log_tid : Int
  prev_lsn : Int
deriving DecidableEq, Repr

/-- `INVALID_LSN` sentinel (an invalid log sequence number, distinct from
every assigned LSN, which start at 0). -/
def INVALID_LSN : Int := -1

/-- Modelled from the spec: the log buffer is a fixed-size in-memory byte
buffer (`LOG_BUFFER_SIZE`); `log_manager.h` with the concrete constant is
not among the provided sources.  The exact value is irrelevant to the
claims; only `0 < LOG_BUFFER_SIZE` matters. -/
def LOG_BUFFER_SIZE : Nat := 32768

/-- The in-memory log buffer: the records currently serialized into it, and
`offset_`, the number of bytes used. -/
structure LogBuffer where
  records : List LogRecord
  offset : Nat
deriving DecidableEq, Repr

/-- Modelled from the spec: `is_full(append_size)` says whether appending
`append_size` bytes would overflow the fixed-size buffer ("serialize into
the buffer if space remains"). -/
def LogBuffer.is_full (buf : LogBuffer) (append_size : Nat) : Bool :=
  buf.offset + append_size > LOG_BUFFER_SIZE

/-- State of `LogManager`: the buffer, `global_lsn_` (next LSN to assign),
`persist_lsn_`, and the on-disk log file contents (as the list of records
appended to it by `disk_manager_->write_log`). -/
structure LogManagerState where
  log_buffer : LogBuffer
  global_lsn : Int
  persist_lsn : Int
  disk_log : List LogRecord
deriving DecidableEq, Repr

/-- `LogManager::add_log_to_buffer` (log_manager.cpp:19-37): if the buffer
has room, assign `lsn = global_lsn_++`, serialize the record into the
buffer and return its lsn; otherwise return `INVALID_LSN` (the flush calls
in this function are commented out in the source).  Returns the assigned
lsn together with the new state. -/
def add_log_to_buffer (s : LogManagerState) (log_record : LogRecord) :
    Int × LogManagerState :=
  if ¬ s.log_buffer.is_full log_record.log_tot_len then
    let r := { log_record with lsn := s.global_lsn }
    (r.lsn,
      { s with
        log_buffer :=
          { records := s.log_buffer.records ++ [r]
            offset := s.log_buffer.offset + r.log_tot_len }
        global_lsn := s.global_lsn + 1 })
  else
    (INVALID_LSN, s)

/-- `LogManager::flush_log_to_disk` (log_manager.cpp:42-51): write the
buffer contents to the log file, reset the buffer, and set
`persist_lsn_ = global_lsn_ - 1`. -/
def flush_log_to_disk (s : LogManagerState) : LogManagerState :=
  { s with
    disk_log := s.disk_log ++ s.log_buffer.records
    log_buffer := { records := [], offset := 0 }
    persist_lsn := s.global_lsn - 1 }

/-- `LOG_HEADER_SIZE`: size of the common log-record header
`{log_type (1B), tot_len (4B), lsn (4B), txn_id (4B), prev_lsn (4B)}`
(spec §6 log record format); BEGIN/COMMIT/ABORT records have an empty
payload, so their `tot_len` is exactly the header size. -/
def LOG_HEADER_SIZE : Nat := 17

/-- `CommitLogRecord(txn_id)`: a COMMIT record as freshly constructed
(lsn and prev_lsn still invalid; `add_log_to_buffer` assigns the lsn). -/
def CommitLogRecord (txn_id : Int) : LogRecord :=
  { log_type := .commit
    log_tot_len := LOG_HEADER_SIZE
    lsn := INVALID_LSN
    log_tid := txn_id
    prev_lsn := INVALID_LSN }

/-! ## Lock manager (`src/unnamed/part_002` + `src/unnamed/part_003`) -/

/-- Lock scope of a `LockDataId`: table-level or record-level
(`LockDataType` in `transaction/txn_defs.h` usage). -/
inductive LockDataType where
  | TABLE
  | RECORD
deriving DecidableEq, Repr

/-- `LockDataId = (fd, rid?, type)`; for TABLE-scope ids the `rid` field is
unused (kept at a fixed default, matching the two C++ constructors). -/
structure LockDataId where
  fd : Int
  rid : Rid := ⟨-1, -1⟩
  type : LockDataType
deriving DecidableEq, Repr

/-- `LockManager::LockMode` (part_003:24), spelling kept from the source. -/
inductive LockMode where
  | SHARED
  | EXLUCSIVE
  | INTENTION_SHARED
  | INTENTION_EXCLUSIVE
  | S_IX
deriving DecidableEq, Repr

/-- `LockManager::GroupLockMode` (part_003:27). -/
inductive GroupLockMode where
  | NON_LOCK
  | IS
  | IX
  | S
  | X
  | SIX
deriving DecidableEq, Repr

/-- A pending or granted request in a queue (`LockRequest`, part_003:30). -/
structure LockRequest where
  txn_id : Int
  lock_mode : LockMode
  granted : Bool
deriving DecidableEq, Repr

/-- A lock queue: the request list plus its group lock mode
(`LockRequestQueue`, part_003:41; the condition variable carries no
modelled state). -/
structure LockRequestQueue where
  request_queue : List LockRequest
  group_lock_mode : GroupLockMode
deriving DecidableEq, Repr

/-- The default-constructed queue that `lock_table_[id]` creates when `id`
is absent (empty queue, `group_lock_mode_ = NON_LOCK`). -/
def emptyQueue : LockRequestQueue :=
  { request_queue := [], group_lock_mode := .NON_LOCK }

/-- The global lock table `lock_table_ : unordered_map<LockDataId,
LockRequestQueue>`, modelled as an association list. -/
abbrev LockTable := List (LockDataId × LockRequestQueue)

/-- `lock_table_.find(id)`: the queue stored at `id`, if present. -/
def ltFind (lt : LockTable) (id : LockDataId) : Option LockRequestQueue :=
  (lt.find? (fun p => p.1 = id)).map Prod.snd

/-- `lock_table_[id]` read access: the stored queue, or the
default-constructed one if absent. -/
def ltGet (lt : LockTable) (id : LockDataId) : LockRequestQueue :=
  (ltFind lt id).getD emptyQueue

/-- Store `q` at `id` (writing through `lock_table_[id]` inserts the entry
when it is absent). -/
def ltSet (lt : LockTable) (id : LockDataId) (q : LockRequestQueue) : LockTable :=
  match lt with
  | [] => [(id, q)]
  | (id', q') :: rest =>
      if id' = id then (id, q) :: rest else (id', q') :: ltSet rest id q

/-- Transaction states (`TransactionState` in `txn_defs.h` usage). -/
inductive TransactionState where
  | DEFAULT
  | GROWING
  | SHRINKING
  | COMMITTED
  | ABORTED
deriving DecidableEq, Repr

/-- Write-record kinds (`WType`). -/
inductive WType where
  | INSERT_TUPLE
  | DELETE_TUPLE
  | UPDATE_TUPLE
deriving DecidableEq, Repr

/-- A write-set entry `(op, table, rid, before_image?)`; the before-image
bytes are modelled as a list of byte values. -/
structure WriteRecord where
  wtype : WType
  tab_name : String
  rid : Rid
  record : List Int
deriving DecidableEq, Repr

/-- The per-transaction state the claims touch: id, state, write-set and
lock-set (`Transaction` in `transaction.h` usage). -/
structure Transaction where
  txn_id : Int
  state : TransactionState
  write_set : List WriteRecord
  lock_set : List LockDataId
deriving DecidableEq, Repr

/-- `lock_trans` (part_003:101-123): the group mode a single lock mode
induces. -/
def lock_trans (lock_mode : LockMode) : GroupLockMode :=
  match lock_mode with
  | .SHARED => .S
  | .EXLUCSIVE => .X
  | .INTENTION_SHARED => .IS
  | .INTENTION_EXCLUSIVE => .IX
  | .S_IX => .SIX

/-- `check` (part_003:70-99): whether `mode` is admitted against the
current group mode; on the NON_LOCK and IS success paths it also
overwrites the group mode (returned as the second component; on failure
the group mode is untouched). -/
def check (gm : GroupLockMode) (mode : LockMode) : Bool × GroupLockMode :=
  match gm with
  | .NON_LOCK => (true, lock_trans mode)
  | .IS =>
      if mode ≠ .EXLUCSIVE then (true, lock_trans mode) else (false, gm)
  | .IX =>
      if mode = .INTENTION_EXCLUSIVE ∨ mode = .INTENTION_SHARED then
        (true, gm)
      else (false, gm)
  | .S =>
      if mode = .SHARED ∨ mode = .INTENTION_SHARED then (true, gm)
      else (false, gm)
  | .SIX =>
      if mode = .INTENTION_SHARED then (true, gm) else (false, gm)
  | .X => (false, gm)

/-- Outcome of one pass through `lock_general`: the call returned `true`,
threw the deadlock-prevention abort, or reached `cv_.wait` (blocked). -/
inductive LockResult where
  | ok
  | deadlockAbort
  | waiting
deriving DecidableEq, Repr

/-- The tail of `lock_general` (part_003:156-182) after the
already-holding branch: set the transaction GROWING, then either create
the queue and grant, or run the admission check; on conflict, abort if the
requester is younger than the queue head, otherwise wait on the condition
variable.  Returns the outcome and the state as left by the call (the
mutations made before an abort persist). -/
def lock_general_tail (lt : LockTable) (txn : Transaction) (id : LockDataId)
    (mode : LockMode) : LockResult × LockTable × Transaction :=
  let txn := { txn with state := .GROWING }
  let req : LockRequest := { txn_id := txn.txn_id, lock_mode := mode, granted := true }
  match ltFind lt id with
  | none =>
      (.ok,
        ltSet lt id { request_queue := [req], group_lock_mode := lock_trans mode },
        { txn with lock_set := id :: txn.lock_set })
  | some q =>
      if (check q.group_lock_mode mode).1 then
        (.ok,
          ltSet lt id
            { request_queue := q.request_queue ++ [req]
              group_lock_mode := lock_trans mode },
          { txn with lock_set := id :: txn.lock_set })
      else
        match q.request_queue.head? with
        | some front =>
            if txn.txn_id > front.txn_id then (.deadlockAbort, lt, txn)
            else (.waiting, lt, txn)
        | none => (.waiting, lt, txn)

/-- `lock_general` (part_003:125-183).  The source first handles a request
on an id the transaction already holds (re-grant, in-place upgrade, or
relinquish-then-reacquire), then falls into the common tail.  Dereferencing
the queue iterator when the lock-set contains `id` but the queue has no
matching entry is undefined behaviour in the source; the model falls
through to the tail with the state unchanged in that (unreachable) case. -/
def lock_general (lt : LockTable) (txn : Transaction) (id : LockDataId)
    (mode : LockMode) : LockResult × LockTable × Transaction :=
  if id ∈ txn.lock_set then
    let q := ltGet lt id
    match q.request_queue.find? (fun r => r.txn_id = txn.txn_id) with
    | some entry =>
        if entry.lock_mode = mode then (.ok, lt, txn)
        else if entry.lock_mode = .EXLUCSIVE then (.ok, lt, txn)
        else if id.type = .TABLE ∧ entry.lock_mode = .S_IX ∧ mode ≠ .EXLUCSIVE then
          (.ok, lt, txn)
        else if q.request_queue.length = 1 then
          (.ok,
            ltSet lt id
              { request_queue :=
                  q.request_queue.map (fun r =>
                    if r.txn_id = txn.txn_id then { r with lock_mode := mode } else r)
                group_lock_mode := lock_trans mode },
            txn)
        else
          let q' := q.request_queue.eraseP (fun r => r.txn_id = txn.txn_id)
          let gm :=
            match q'.head? with
            | some front => lock_trans front.lock_mode
            | none => q.group_lock_mode
          lock_general_tail
            (ltSet lt id { request_queue := q', group_lock_mode := gm })
            { txn with lock_set := txn.lock_set.filter (· ≠ id) } id mode
    | none => lock_general_tail lt txn id mode
  else
    lock_general_tail lt txn id mode

/-- `LockManager::unlock` (part_002:235-258): unconditionally set the
transaction SHRINKING, drop the transaction's entry from the queue if it
has one (recomputing the group mode from the new head), notify, and return
`true`. -/
def unlock (lt : LockTable) (txn : Transaction) (lock_data_id : LockDataId) :
    Bool × LockTable × Transaction :=
  let txn := { txn with state := .SHRINKING }
  let q := ltGet lt lock_data_id
  match q.request_queue.find? (fun r => r.txn_id = txn.txn_id) with
  | none =>
      -- `Queue(lock_data_id)` (operator[]) has inserted the default entry
      -- when the id was absent; the queue contents are untouched.
      (true, ltSet lt lock_data_id q, txn)
  | some _ =>
      let q' := q.request_queue.eraseP (fun r => r.txn_id = txn.txn_id)
      let gm : GroupLockMode :=
        match q'.head? with
        | none => .NON_LOCK
        | some front => lock_trans front.lock_mode
      (true, ltSet lt lock_data_id { request_queue := q', group_lock_mode := gm }, txn)

/-! ## Transaction manager (`src/unnamed/part_002`) -/

/-- One step of the lock-release loop in `TransactionManager::commit`
(part_002:60-63): `lock_manager_->unlock(txn, lock)` threaded through the
lock table and the transaction. -/
def commit_unlock_step (p : LockTable × Transaction) (lock : LockDataId) :
    LockTable × Transaction :=
  let r := unlock p.1 p.2 lock
  (r.2.1, r.2.2)

/-- `TransactionManager::commit` (part_002:53-77): clear the write-set,
release every lock in the lock-set, append a COMMIT record to the log
buffer via `add_log_to_buffer`, and set the state COMMITTED.  The source
contains no call to `flush_log_to_disk`. -/
def commit (txn : Transaction) (lt : LockTable) (log : LogManagerState) :
    Transaction × LockTable × LogManagerState :=
  let txn := { txn with write_set := [] }
  let (lt, txn) := txn.lock_set.foldl commit_unlock_step (lt, txn)
  let txn := { txn with lock_set := [] }
  let (_, log) := add_log_to_buffer log (CommitLogRecord txn.txn_id)
  ({ txn with state := .COMMITTED }, lt, log)

/-! ## Record file (`src/src/record/rm_file_handle.cpp`) -/

/-- Storage-layer errors raised by the record file code
(`PageNotExistError`, `RecordNotFoundError`). -/
inductive RmError where
  | pageNotExist (page_no : Int)
  | recordNotFound (page_no slot_no : Int)
deriving DecidableEq, Repr

/-- A slotted data page: page header `{next_free_page_no, num_records}`,
the free bitmap, and the fixed-size record slots (slot bytes modelled as a
list of byte values per slot). -/
structure RmPage where
  next_free_page_no : Int
  num_records : Int
  bitmap : Int → Bool
  slots : Int → List Int

/-- The record file header `{record_size, num_records_per_page,
bitmap_size, num_pages, first_free_page_no}` stored on page 0. -/
structure RmFileHdr where
  record_size : Nat
  num_records_per_page : Int
  bitmap_size : Int
  num_pages : Int
  first_free_page_no : Int

/-- State of one record file: header plus its pages (indexed by page
number; pages `0 ≤ p < num_pages` are the allocated ones). -/
structure RmFileState where
  file_hdr : RmFileHdr
  pages : Int → RmPage

/-- Replace the page stored at `page_no`. -/
def RmFileState.setPage (s : RmFileState) (page_no : Int) (p : RmPage) :
    RmFileState :=
  { s with pages := fun x => if x = page_no then p else s.pages x }

/-- `RM_NO_PAGE` / `RM_FIRST_RECORD_PAGE`: Modelled from the spec —
page 0 stores the file header and the remaining pages are data pages, so
the first record page is 1, and the scan "terminates by setting
`page_no = SENTINEL`" with an out-of-band sentinel (`rm_defs.h` with the
concrete constants is not among the provided sources). -/
def RM_NO_PAGE : Int := -1

/-- First data page of a record file (page 0 is the file header). -/
def RM_FIRST_RECORD_PAGE : Int := 1

/-- `RmFileHandle::get_record` (rm_file_handle.cpp:9-26): fetch the page
handle of `rid.page_no` (`fetch_page_handle` throws `PageNotExistError`
when `page_no ≥ file_hdr_.num_pages`, rm_file_handle.cpp:101-119), then
copy `record_size` bytes out of the slot.  The source performs no bitmap
check. -/
def get_record (s : RmFileState) (rid : Rid) : Except RmError (List Int) :=
  if rid.page_no ≥ s.file_hdr.num_pages then
    .error (.pageNotExist rid.page_no)
  else
    .ok ((s.pages rid.page_no).slots rid.slot_no)

/-- `RmFileHandle::create_new_page_handle` (rm_file_handle.cpp:126-149):
allocate a new page (monotonically increasing page numbers per file, spec
§4.1, so the fresh page number is `num_pages`), zero-fill it, link it at
the head of the free list, and bump `num_pages`.  Returns the new page
number and the new state. -/
def create_new_page_handle (s : RmFileState) : Int × RmFileState :=
  let new_page_no := s.file_hdr.num_pages
  let page : RmPage :=
    { next_free_page_no := s.file_hdr.first_free_page_no
      num_records := 0
      bitmap := fun _ => false
      slots := fun _ => List.replicate s.file_hdr.record_size 0 }
  (new_page_no,
    { file_hdr :=
        { s.file_hdr with
          num_pages := s.file_hdr.num_pages + 1
          first_free_page_no := new_page_no }
      pages := fun x => if x = new_page_no then page else s.pages x })

/-- `RmFileHandle::insert_record(const Rid&, char*)`
(rm_file_handle.cpp:193-208), the force-insert used by undo/redo: when
`rid.page_no < file_hdr_.num_pages` it calls `create_new_page_handle()`
(once), then fetches `rid.page_no` (throwing `PageNotExistError` when that
page number is still not below `num_pages`), sets the bitmap bit, bumps
`num_records` (detaching the page from the free list when it fills), and
copies the record bytes into the slot. -/
def insert_record_at (s : RmFileState) (rid : Rid) (buf : List Int) :
    Except RmError RmFileState :=
  let s := if rid.page_no < s.file_hdr.num_pages then (create_new_page_handle s).2 else s
  if rid.page_no ≥ s.file_hdr.num_pages then
    .error (.pageNotExist rid.page_no)
  else
    let p := s.pages rid.page_no
    let p :=
      { p with
        bitmap := fun x => if x = rid.slot_no then true else p.bitmap x
        num_records := p.num_records + 1 }
    let s :=
      if p.num_records = s.file_hdr.num_records_per_page then
        { s with
          file_hdr := { s.file_hdr with first_free_page_no := p.next_free_page_no } }
      else s
    let p := { p with slots := fun x => if x = rid.slot_no then buf else p.slots x }
    .ok (s.setPage rid.page_no p)

/-! ## Record scan (`src/src/record/rm_scan.cpp`, `src/unnamed/part_005`) -/

/-- Modelled from the spec: `Bitmap::next_bit(true, bitmap, max, curr)`
scans the bitmap for the next set bit strictly after position `curr`,
returning `max` when there is none ("finds next set bit via bitmap scan";
`bitmap.h` is not among the provided sources).  `next_bit_go` is the scan
loop from position `i` upward; the loop runs at most `(max - i)`
iterations, which is supplied as structural fuel (the entry point passes
exactly that bound, so the fuel never runs out before the `i < max` test
fails). -/
def next_bit_go (bm : Int → Bool) (max : Int) : Nat → Int → Int
  | 0, _ => max
  | fuel + 1, i =>
      if i < max then
        if bm i then i else next_bit_go bm max fuel (i + 1)
      else max

/-- `Bitmap::next_bit(true, bm, max, curr)`: the first position in
`(curr, max)` whose bit is set, or `max`. -/
def next_bit (bm : Int → Bool) (max : Int) (curr : Int) : Int :=
  next_bit_go bm max (max - (curr + 1)).toNat (curr + 1)

/-- The page loop of `RmScan::next` (rm_scan.cpp:28-38): starting at
`(page_no, slot_no)`, find the next set bitmap bit on the current page;
if the page is exhausted move to the next page with `slot_no = -1`; when
the pages run out set `page_no = RM_NO_PAGE`.  The loop visits at most
`num_pages - page_no` pages, supplied as structural fuel by `scanFrom`
(so the fuel never runs out before the `page_no < num_pages` test
fails). -/
def scanGo (s : RmFileState) : Nat → Int → Int → Rid
  | 0, _, slot_no => ⟨RM_NO_PAGE, slot_no⟩
  | fuel + 1, page_no, slot_no =>
      if page_no < s.file_hdr.num_pages then
        let sl := next_bit (s.pages page_no).bitmap
            s.file_hdr.num_records_per_page slot_no
        if sl < s.file_hdr.num_records_per_page then ⟨page_no, sl⟩
        else scanGo s fuel (page_no + 1) (-1)
      else ⟨RM_NO_PAGE, slot_no⟩

/-- The page loop entered at `(page_no, slot_no)`. -/
def scanFrom (s : RmFileState) (page_no slot_no : Int) : Rid :=
  scanGo s (s.file_hdr.num_pages - page_no).toNat page_no slot_no

/-- `RmScan::is_end` (rm_scan.cpp:44-47). -/
def RmScan.is_end (rid : Rid) : Bool :=
  rid.page_no = RM_NO_PAGE

/-- `RmScan::next` (rm_scan.cpp:23-39): return immediately when the scan
has ended, otherwise run the page loop from the current position. -/
def RmScan.next (s : RmFileState) (rid : Rid) : Rid :=
  if RmScan.is_end rid then rid
  else scanFrom s rid.page_no rid.slot_no

/-- `RmScan::RmScan` (rm_scan.cpp:10-18): initialize
`rid = (RM_FIRST_RECORD_PAGE, -1)` and call `next()` to land on the first
record. -/
def RmScan.make (s : RmFileState) : Rid :=
  RmScan.next s ⟨RM_FIRST_RECORD_PAGE, -1⟩

/-- A live record position: a data page below `num_pages` and a slot below
`num_records_per_page` whose bitmap bit is set (spec §3: a slot's bitmap
bit is set iff it is live). -/
def isLiveRid (s : RmFileState) (p sl : Int) : Prop :=
  RM_FIRST_RECORD_PAGE ≤ p ∧ p < s.file_hdr.num_pages ∧
    0 ≤ sl ∧ sl < s.file_hdr.num_records_per_page ∧
    (s.pages p).bitmap sl = true

instance (s : RmFileState) (p sl : Int) : Decidable (isLiveRid s p sl) := by
  unfold isLiveRid
  infer_instance

/-! ## Portal scan conversion and sequential scan
(`src/src/portal.h`, `src/src/execution/executor_seq_scan.h`) -/

/-- Scan plan tags (`PlanTag` values `T_SeqScan` / `T_IndexScan` used by
`Portal::convert_plan_executor`). -/
inductive ScanTag where
  | T_SeqScan
  | T_IndexScan
deriving DecidableEq, Repr

/-- A lock acquisition request issued to the lock manager: the mode and
the lock-data id. -/
structure LockAction where
  mode : LockMode
  id : LockDataId
deriving DecidableEq, Repr

/-- The table-level `LockDataId` built by the table-lock entry points
(`LockDataId{tab_fd, LockDataType::TABLE}`, part_002). -/
def tableLockId (tab_fd : Int) : LockDataId :=
  { fd := tab_fd, type := .TABLE }

/-- The record-level `LockDataId` built by the record-lock entry points
(`LockDataId{tab_fd, rid, LockDataType::RECORD}`, part_002). -/
def recordLockId (tab_fd : Int) (rid : Rid) : LockDataId :=
  { fd := tab_fd, rid := rid, type := .RECORD }

/-- The table lock `Portal::convert_plan_executor` acquires when opening a
scan plan (portal.h:192-200): `lock_shared_on_table` (SHARED) for
`T_SeqScan`, `lock_IS_on_table` (INTENTION_SHARED) for the index-scan
branch. -/
def portal_scan_table_lock (tag : ScanTag) (tab_fd : Int) : LockAction :=
  match tag with
  | .T_SeqScan => { mode := .SHARED, id := tableLockId tab_fd }
  | .T_IndexScan => { mode := .INTENTION_SHARED, id := tableLockId tab_fd }

/-- `SeqScanExecutor::beginTuple` (executor_seq_scan.h:68-81), with the
predicate `eval_conds(cols_, fed_conds_, rec)` abstracted as a boolean
function of the record bytes (its column-wise evaluation is irrelevant to
the locking claim): walk the record scan; for the first record satisfying
the filter, acquire `lock_shared_on_record` on its rid and stop.  The
result is the final scan position together with the lock requests issued,
`none` when the fuel runs out (the loop visits each live record at most
once, so any fuel bounding the number of live records is adequate). -/
def beginTupleGo (s : RmFileState) (fd : Int) (cond : List Int → Bool) :
    Nat → Rid → Option (Rid × List LockAction)
  | 0, _ => none
  | fuel + 1, rid =>
      if RmScan.is_end rid then some (rid, [])
      else
        match get_record s rid with
        | .error _ => none
        | .ok rec =>
            if cond rec then
              some (rid, [{ mode := .SHARED, id := recordLockId fd rid }])
            else
              beginTupleGo s fd cond fuel (RmScan.next s rid)

/-- `SeqScanExecutor::beginTuple` entry: open the scan on the file and run
the filter loop. -/
def beginTuple (s : RmFileState) (fd : Int) (cond : List Int → Bool)
    (fuel : Nat) : Option (Rid × List LockAction) :=
  beginTupleGo s fd cond fuel (RmScan.make s)

/-! ## Recovery analyze pass (`src/unnamed/part_006`) -/

/-- `active_txns_ : unordered_map<txn_id_t, lsn_t>` as an association
list. -/
abbrev ActiveTxns := List (Int × Int)

/-- `unordered_map::insert({k, v})`: inserts only when the key is absent. -/
def amInsert (m : ActiveTxns) (k v : Int) : ActiveTxns :=
  match m.find? (fun p => p.1 = k) with
  | some _ => m
  | none => m ++ [(k, v)]

/-- `unordered_map::erase(k)`. -/
def amErase (m : ActiveTxns) (k : Int) : ActiveTxns :=
  m.filter (fun p => p.1 ≠ k)

/-- `unordered_map::operator[](k)` read: value-initializes to `0` when the
key is absent. -/
def amGet (m : ActiveTxns) (k : Int) : Int :=
  ((m.find? (fun p => p.1 = k)).map Prod.snd).getD 0

/-- `unordered_map::operator[](k) = v`: insert-or-overwrite. -/
def amSet (m : ActiveTxns) (k v : Int) : ActiveTxns :=
  match m.find? (fun p => p.1 = k) with
  | some _ => m.map (fun p => if p.1 = k then (k, v) else p)
  | none => m ++ [(k, v)]

/-- Result of the analyze pass: the active-transaction map and the ordered
log-record list `log_recs_`. -/
structure AnalyzeResult where
  active_txns : ActiveTxns
  log_recs : List LogRecord
deriving DecidableEq, Repr

/-- The loop of `RecoveryManager::analyze` (part_006:95-143) over the
stream of records read from the log file (end of list = EOF / truncated
record, where `read_log_record` returns null).  Each iteration tries
`handleBeginLogRecord`, then `handleCommitOrAbortLogRecord`, then
`handleInsertUpdateDeleteLogRecord`, and `break`s when none fires.

Modelled from the spec for the dispatch itself: the three handlers test
the record with `dynamic_pointer_cast` to `BeginLogRecord`,
`CommitLogRecord` and `InsertLogRecord` respectively; the spec's
log-record taxonomy (§3, §6) makes BEGIN, COMMIT, ABORT, INSERT, DELETE,
UPDATE six sibling record classes (`log_manager.h` is not among the
provided sources), so each cast succeeds exactly when the record's type is
the one cast to — COMMIT for the second handler and INSERT for the third. -/
def analyze_go : List LogRecord → ActiveTxns → List LogRecord → AnalyzeResult
  | [], active, acc => { active_txns := active, log_recs := acc.reverse }
  | r :: rest, active, acc =>
      match r.log_type with
      | .begin_ =>
          -- handleBeginLogRecord (part_006:111-120)
          analyze_go rest (amInsert active r.log_tid r.lsn) (r :: acc)
      | .commit =>
          -- handleCommitOrAbortLogRecord (part_006:122-131); only the
          -- CommitLogRecord cast is attempted, so only COMMIT fires here
          analyze_go rest (amErase active r.log_tid) (r :: acc)
      | .insert =>
          -- handleInsertUpdateDeleteLogRecord (part_006:133-143); only the
          -- InsertLogRecord cast is attempted, so only INSERT fires here
          let prev := amGet active r.log_tid
          let r' := { r with prev_lsn := prev }
          analyze_go rest (amSet active r.log_tid r.lsn) (r' :: acc)
      | _ =>
          -- no handler accepted the record: `break` (part_006:107)
          { active_txns := active, log_recs := acc.reverse }

/-- `RecoveryManager::analyze` (part_006:95-109): scan the log from offset
0 and run the handler loop with empty initial state. -/
def analyze (log : List LogRecord) : AnalyzeResult :=
  analyze_go log [] []

/-! ## B+-tree index (`src/src/index/ix_index_handle.cpp`) -/

/-- A composite index key.  Modelled from the spec (§4.5 Comparison):
a key is the concatenation of fixed-width column encodings and is compared
column by column, each column by its type's total order (`ix_compare` in
`ix_defs.h` is not among the provided sources); each column value is
abstracted to one integer. -/
abbrev Key := List Int

/-- `ix_compare(a, b, col_types, col_lens)`: column-by-column three-way
comparison, `-1` / `0` / `1`. -/
def ix_compare : Key → Key → Int
  | x :: xs, y :: ys =>
      if x < y then -1 else if y < x then 1 else ix_compare xs ys
  | _, _ => 0

/-- Index-layer errors (`UniqueConstraintError`, `IndexEntryNotFoundError`,
`InternalError`). -/
inductive IxError where
  | uniqueConstraint
  | indexEntryNotFound
  | internalError
deriving DecidableEq, Repr

/-- `INVALID_PAGE_ID` (buffer-pool sentinel for "no page"). -/
def INVALID_PAGE_ID : Int := -1

/-- `IX_NO_PAGE` (index-file sentinel for "no page"). -/
def IX_NO_PAGE : Int := -1

/-- A B+-tree node page: `{is_leaf, num_key, parent, prev_leaf, next_leaf,
next_free_page_no, keys[], rids[]}` (spec §3); `num_key` is the length of
`keys` (the C++ arrays beyond `num_key` are dead storage). -/
structure IxNode where
  is_leaf : Bool
  parent : Int
  prev_leaf : Int
  next_leaf : Int
  next_free_page_no : Int
  keys : List Key
  rids : List Rid
deriving DecidableEq, Repr

/-- `get_key(i)`. -/
def IxNode.keyAt (node : IxNode) (i : Nat) : Key :=
  node.keys.getD i []

/-- `get_rid(i)`. -/
def IxNode.ridAt (node : IxNode) (i : Nat) : Rid :=
  node.rids.getD i ⟨-1, -1⟩

/-- The binary-search loop of `IxNodeHandle::lower_bound`
(ix_index_handle.cpp:24-38): `while (left < right) { mid = left +
(right-left)/2; if (COMPARE(target, mid) > 0) left = mid+1; else right =
mid; }`.  The loop runs at most `num_key` iterations (the gap
`right - left` shrinks every iteration), so it is written with that
structural fuel; the indices stay in `[0, num_key]` and are kept as
naturals. -/
def bsearch_go (key : Key) (ks : List Key) : Nat → Nat → Nat → Nat
  | 0, left, _ => left
  | fuel + 1, left, right =>
      if left < right then
        let mid := left + (right - left) / 2
        if ix_compare key (ks.getD mid []) > 0 then
          bsearch_go key ks fuel (mid + 1) right
        else
          bsearch_go key ks fuel left mid
      else left

/-- `IxNodeHandle::lower_bound(target)` (ix_index_handle.cpp:24-38):
binary search for the least `i` with `keys[i] ≥ target` under the loop
above, starting from `left = 0, right = num_key`. -/
def IxNode.lower_bound (node : IxNode) (key : Key) : Nat :=
  bsearch_go key node.keys node.keys.length 0 node.keys.length

/-- The binary-search loop of `IxNodeHandle::upper_bound`
(ix_index_handle.cpp:46-58), which moves `left` on `COMPARE ≥ 0`. -/
def bsearch_ub_go (key : Key) (ks : List Key) : Nat → Nat → Nat → Nat
  | 0, left, _ => left
  | fuel + 1, left, right =>
      if left < right then
        let mid := left + (right - left) / 2
        if ix_compare key (ks.getD mid []) ≥ 0 then
          bsearch_ub_go key ks fuel (mid + 1) right
        else
          bsearch_ub_go key ks fuel left mid
      else left

/-- `IxNodeHandle::upper_bound(target)` (ix_index_handle.cpp:46-58):
starts from `left = 1, right = num_key` (internal-search convention). -/
def IxNode.upper_bound (node : IxNode) (key : Key) : Nat :=
  bsearch_ub_go key node.keys node.keys.length 1 node.keys.length

/-- `IxNodeHandle::leaf_lookup(key, &value)` (ix_index_handle.cpp:68-78):
`lower_bound`, then fail when `index == num_key` or the key at `index`
compares non-zero; otherwise yield `rids[index]`. -/
def IxNode.leaf_lookup (node : IxNode) (key : Key) : Option Rid :=
  let index := node.lower_bound key
  if index = node.keys.length ∨ ix_compare key (node.keyAt index) ≠ 0 then
    none
  else
    some (node.ridAt index)

/-- `IxNodeHandle::internal_lookup(key)` (ix_index_handle.cpp:96-102):
`upper_bound`, then the child page number at `index - 1`. -/
def IxNode.internal_lookup (node : IxNode) (key : Key) : Int :=
  (node.ridAt (node.upper_bound key - 1)).page_no

/-- `IxNodeHandle::insert_pairs(pos, keys, rids, n)`
(ix_index_handle.cpp:118-140): no-op when `pos` is out of `[0, num_key]`;
otherwise splice the `n` new pairs in at `pos` (in the source `pos < 0` is
impossible for the `Nat`-ranged positions used here). -/
def IxNode.insert_pairs (node : IxNode) (pos : Nat) (ks : List Key)
    (rs : List Rid) : IxNode :=
  if pos > node.keys.length then node
  else
    { node with
      keys := node.keys.take pos ++ ks ++ node.keys.drop pos
      rids := node.rids.take pos ++ rs ++ node.rids.drop pos }

/-- `IxNodeHandle::insert_pair(pos, key, rid)` = `insert_pairs` with one
pair. -/
def IxNode.insert_pair (node : IxNode) (pos : Nat) (key : Key) (rid : Rid) :
    IxNode :=
  node.insert_pairs pos [key] [rid]

/-- `IxNodeHandle::insert(key, value)` (ix_index_handle.cpp:149-160):
`lower_bound`; when the key at that position compares equal, throw
`UniqueConstraintError`; otherwise `insert_pair` there.  (The source
returns the new `num_key`; callers read it off the node.) -/
def IxNode.insert (node : IxNode) (key : Key) (value : Rid) :
    Except IxError IxNode :=
  let insert_position := node.lower_bound key
  if insert_position < node.keys.length ∧
      ix_compare key (node.keyAt insert_position) = 0 then
    .error .uniqueConstraint
  else
    .ok (node.insert_pair insert_position key value)

/-- `IxNodeHandle::find_child(child)` (ix_node_handle.cpp usage in
`insert_into_parent`): the first `rid_idx` whose rid's `page_no` is the
child's page number. -/
def IxNode.find_child (node : IxNode) (child_page_no : Int) : Nat :=
  node.rids.findIdx (fun r => r.page_no = child_page_no)

/-- The index file header `{root_page, first_leaf, last_leaf, num_pages}`
(spec §3), together with the node capacity `max_size` used by the split
tests (`IxNodeHandle::get_max_size`, declared in `ix_index_handle.h`,
which is not among the provided sources; its concrete value is determined
by page and key sizes and is irrelevant to the claims). -/
structure IxFileHdr where
  root_page : Int
  first_leaf : Int
  last_leaf : Int
  num_pages : Int
  max_size : Nat
deriving DecidableEq, Repr

/-- State of one open B+-tree index: the file header and the node pages. -/
structure IxState where
  file_hdr : IxFileHdr
  nodes : Int → IxNode

/-- Replace the node stored at `page_no`. -/
def IxState.setNode (s : IxState) (page_no : Int) (n : IxNode) : IxState :=
  { s with nodes := fun x => if x = page_no then n else s.nodes x }

/-- The zero-filled node a freshly allocated page holds. -/
def emptyNode : IxNode :=
  { is_leaf := false, parent := 0, prev_leaf := 0, next_leaf := 0
    next_free_page_no := 0, keys := [], rids := [] }

/-- `IxIndexHandle::create_node` (ix_index_handle.cpp:700-707): bump
`num_pages_` and allocate a fresh page from the buffer pool
(`allocate_page` hands out monotonically increasing page numbers per file,
spec §4.1, so the fresh page number is the previous page count). -/
def create_node (s : IxState) : Int × IxState :=
  let new_page_no := s.file_hdr.num_pages
  (new_page_no,
    { file_hdr := { s.file_hdr with num_pages := s.file_hdr.num_pages + 1 }
      nodes := fun x => if x = new_page_no then emptyNode else s.nodes x })

/-- `IxIndexHandle::maintain_child(node, child_idx)`
(ix_index_handle.cpp:764-772): for an internal node, set the `child_idx`-th
child's parent pointer to `node`. -/
def maintain_child (s : IxState) (node_page_no : Int) (child_idx : Nat) :
    IxState :=
  let node := s.nodes node_page_no
  if ¬ node.is_leaf then
    let child_page_no := (node.ridAt child_idx).page_no
    s.setNode child_page_no
      { s.nodes child_page_no with parent := node_page_no }
  else s

/-- `IxIndexHandle::split(node)` (ix_index_handle.cpp:272-301): create a
right sibling, move the upper half of the pairs into it, splice the leaf
chain (or re-parent the moved children for an internal node).  Returns the
new node's page number and the new state. -/
def split (s : IxState) (node_page_no : Int) : Int × IxState :=
  let (new_page_no, s) := create_node s
  let node := s.nodes node_page_no
  let split_pos := node.keys.length / 2
  let new_node :=
    { s.nodes new_page_no with
      is_leaf := node.is_leaf
      parent := node.parent
      next_free_page_no := node.next_free_page_no }
  let new_node :=
    new_node.insert_pairs 0 (node.keys.drop split_pos) (node.rids.drop split_pos)
  let node :=
    { node with
      keys := node.keys.take split_pos
      rids := node.rids.take split_pos }
  if new_node.is_leaf then
    let new_node := { new_node with prev_leaf := node_page_no, next_leaf := node.next_leaf }
    let s :=
      if new_node.next_leaf ≠ INVALID_PAGE_ID then
        s.setNode new_node.next_leaf
          { s.nodes new_node.next_leaf with prev_leaf := new_page_no }
      else s
    let node := { node with next_leaf := new_page_no }
    let s := s.setNode node_page_no node
    let s := s.setNode new_page_no new_node
    (new_page_no, s)
  else
    let s := s.setNode node_page_no node
    let s := s.setNode new_page_no new_node
    let s :=
      (List.range new_node.keys.length).foldl
        (fun s i => maintain_child s new_page_no i) s
    (new_page_no, s)

/-- `IxIndexHandle::insert_into_parent(old_node, key, new_node)`
(ix_index_handle.cpp:334-364): if the old node is the root, build a new
root holding the two children and update `file_hdr_->root_page_`;
otherwise insert the separator after the old child's slot in the parent,
and recursively split the parent when it reaches `max_size`.  The
recursion depth is bounded by the (finite) parent chain; `fuel` bounds it,
`none` meaning the chain did not bottom out. -/
def insert_into_parent (s : IxState) (old_page_no : Int) (key : Key)
    (new_page_no : Int) : Nat → Option IxState
  | 0 => none
  | fuel + 1 =>
      if old_page_no = s.file_hdr.root_page then
        let (root_page_no, s) := create_node s
        let old := s.nodes old_page_no
        let new_root :=
          { s.nodes root_page_no with
            is_leaf := false
            parent := INVALID_PAGE_ID
            next_free_page_no := IX_NO_PAGE }
        let new_root := new_root.insert_pair 0 (old.keyAt 0) ⟨old_page_no, -1⟩
        let new_root := new_root.insert_pair 1 key ⟨new_page_no, -1⟩
        let s := s.setNode root_page_no new_root
        let s := s.setNode old_page_no { s.nodes old_page_no with parent := root_page_no }
        let s := s.setNode new_page_no { s.nodes new_page_no with parent := root_page_no }
        some { s with file_hdr := { s.file_hdr with root_page := root_page_no } }
      else
        let old := s.nodes old_page_no
        let parent_page_no := old.parent
        let parent := s.nodes parent_page_no
        let pos := parent.find_child old_page_no
        let parent := parent.insert_pair (pos + 1) key ⟨new_page_no, -1⟩
        let s := s.setNode parent_page_no parent
        if parent.keys.length = s.file_hdr.max_size then
          let (split_page_no, s) := split s parent_page_no
          insert_into_parent s parent_page_no
            ((s.nodes split_page_no).keyAt 0) split_page_no fuel
        else some s

/-- The descent loop of `IxIndexHandle::find_leaf_page`
(ix_index_handle.cpp:229-240): from the root, repeatedly
`internal_lookup` until a leaf is reached.  `fuel` bounds the descent
(`none` = the walk did not reach a leaf within `fuel` steps; the C++ loop
would keep walking). -/
def findLeafGo (s : IxState) (key : Key) : Nat → Int → Option Int
  | 0, _ => none
  | fuel + 1, page_no =>
      let node := s.nodes page_no
      if node.is_leaf then some page_no
      else findLeafGo s key fuel (node.internal_lookup key)

/-- `IxIndexHandle::find_leaf_page(key, op, txn)`: descend from
`file_hdr_->root_page_`. -/
def find_leaf_page (s : IxState) (key : Key) (fuel : Nat) : Option Int :=
  findLeafGo s key fuel s.file_hdr.root_page

/-- `IxIndexHandle::get_value(key, result, txn)`
(ix_index_handle.cpp:250-263): find the leaf, `leaf_lookup`, and report
whether the key exists. -/
def get_value (s : IxState) (key : Key) (fuel : Nat) : Option Bool :=
  (find_leaf_page s key fuel).map
    (fun leaf_page_no => ((s.nodes leaf_page_no).leaf_lookup key).isSome)

/-- `IxIndexHandle::insert_entry(key, value, txn)`
(ix_index_handle.cpp:391-411): find the leaf; node-level `insert` (which
throws `UniqueConstraintError` on a duplicate, propagated with the state
exactly as it was at the throw — nothing has been written at that point);
on success, if the leaf reached `max_size`, split it, update
`file_hdr_->last_leaf_` if the right-most leaf split, and
`insert_into_parent`.  Returns the leaf's page number.  The outer `Option`
is fuel exhaustion of the descent / parent walk. -/
def insert_entry (s : IxState) (key : Key) (value : Rid) (fuel : Nat) :
    Option (Except IxError Int × IxState) :=
  match find_leaf_page s key fuel with
  | none => none
  | some leaf_page_no =>
      let leaf := s.nodes leaf_page_no
      let num_key := leaf.keys.length
      match leaf.insert key value with
      | .error e => some (.error e, s)
      | .ok leaf' =>
          let s := s.setNode leaf_page_no leaf'
          let insertion_successful := num_key ≠ leaf'.keys.length
          if insertion_successful ∧ leaf'.keys.length = s.file_hdr.max_size then
            let (split_page_no, s) := split s leaf_page_no
            let s :=
              if s.file_hdr.last_leaf = leaf_page_no then
                { s with file_hdr := { s.file_hdr with last_leaf := split_page_no } }
              else s
            match insert_into_parent s leaf_page_no
                ((s.nodes split_page_no).keyAt 0) split_page_no fuel with
            | none => none
            | some s => some (.ok leaf_page_no, s)
          else some (.ok leaf_page_no, s)

/-! ## Concrete states used by witnesses and counterexamples -/

/-- An allocated data page with an all-clear bitmap; every slot holds the
bytes `[9, 9]`. -/
def wPage : RmPage :=
  { next_free_page_no := -1
    num_records := 0
    bitmap := fun _ => false
    slots := fun _ => [9, 9] }

/-- A data page whose only live slot is slot 2 (bytes `[5, 6]`
everywhere). -/
def wPageLive : RmPage :=
  { next_free_page_no := -1
    num_records := 1
    bitmap := fun x => x = 2
    slots := fun _ => [5, 6] }

/-- A record file with one data page (page 1) and no live records. -/
def rmNoRecords : RmFileState :=
  { file_hdr :=
      { record_size := 2
        num_records_per_page := 4
        bitmap_size := 1
        num_pages := 2
        first_free_page_no := 1 }
    pages := fun _ => wPage }

/-- A record file with one data page (page 1) whose only live record sits
at slot 2. -/
def rmOneRecord : RmFileState :=
  { file_hdr :=
      { record_size := 2
        num_records_per_page := 4
        bitmap_size := 1
        num_pages := 2
        first_free_page_no := 1 }
    pages := fun p => if p = 1 then wPageLive else wPage }

/-- A record file holding only the header page (no data pages yet). -/
def rmHeaderOnly : RmFileState :=
  { file_hdr :=
      { record_size := 2
        num_records_per_page := 4
        bitmap_size := 1
        num_pages := 1
        first_free_page_no := -1 }
    pages := fun _ => wPage }

/-- A single-leaf B+-tree whose root (page 2) holds the key `[5]`. -/
def ixLeaf : IxNode :=
  { is_leaf := true, parent := -1, prev_leaf := -1, next_leaf := -1
    next_free_page_no := -1, keys := [[5]], rids := [⟨1, 0⟩] }

/-- The index state around `ixLeaf`: root/first/last leaf = page 2. -/
def ixOneLeaf : IxState :=
  { file_hdr :=
      { root_page := 2, first_leaf := 2, last_leaf := 2, num_pages := 3
        max_size := 4 }
    nodes := fun p => if p = 2 then ixLeaf else emptyNode }

/-- A table-level lock id on fd 1. -/
def c2Id : LockDataId := tableLockId 1

/-- A queue holding one granted exclusive request by transaction 3. -/
def c2Queue : LockRequestQueue :=
  { request_queue := [{ txn_id := 3, lock_mode := .EXLUCSIVE, granted := true }]
    group_lock_mode := .X }

/-- A lock table with the single queue `c2Queue` at `c2Id`. -/
def c2Table : LockTable := [(c2Id, c2Queue)]

/-- A transaction younger (larger id) than the head of `c2Queue`. -/
def c2TxnYoung : Transaction :=
  { txn_id := 5, state := .DEFAULT, write_set := [], lock_set := [] }

/-- A transaction older (smaller id) than the head of `c2Queue`. -/
def c2TxnOld : Transaction :=
  { txn_id := 2, state := .DEFAULT, write_set := [], lock_set := [] }

/-- A transaction holding no entry in any `c2Table` queue. -/
def c9Txn : Transaction :=
  { txn_id := 9, state := .GROWING, write_set := [], lock_set := [c2Id] }

/-- A committing transaction with no locks and no writes. -/
def c1Txn : Transaction :=
  { txn_id := 7, state := .GROWING, write_set := [], lock_set := [] }

/-- An empty log-manager state. -/
def c1Log : LogManagerState :=
  { log_buffer := { records := [], offset := 0 }
    global_lsn := 0, persist_lsn := -1, disk_log := [] }

/-- A log-manager state whose buffer is completely full. -/
def c6Log : LogManagerState :=
  { log_buffer := { records := [], offset := LOG_BUFFER_SIZE }
    global_lsn := 5, persist_lsn := -1, disk_log := [] }

/-- An INSERT log record of 40 bytes. -/
def c6Rec : LogRecord :=
  { log_type := .insert, log_tot_len := 40, lsn := -1, log_tid := 1
    prev_lsn := -1 }

/-- A BEGIN record of transaction 0 as read back from the log file. -/
def c8Begin : LogRecord :=
  { log_type := .begin_, log_tot_len := LOG_HEADER_SIZE, lsn := 0
    log_tid := 0, prev_lsn := -1 }

/-- An ABORT record of transaction 0 as read back from the log file. -/
def c8Abort : LogRecord :=
  { log_type := .abort, log_tot_len := LOG_HEADER_SIZE, lsn := 1
    log_tid := 0, prev_lsn := -1 }

/-- The positions the scan loop entered at `(page, slot)` still visits:
a later slot of the same page, or any slot of a later page. -/
abbrev scanVisits (page slot p sl : Int) : Prop :=
  (p = page ∧ slot < sl) ∨ page < p

/-- A live slot position, without the first-data-page lower bound (the
loop-local version of `isLiveRid`). -/
abbrev pageLive (s : RmFileState) (p sl : Int) : Prop :=
  p < s.file_hdr.num_pages ∧ 0 ≤ sl ∧
    sl < s.file_hdr.num_records_per_page ∧ (s.pages p).bitmap sl = true

/-! ## Theorems -/

/-- Claim C4 (code bug): the force-insert `RmFileHandle::insert_record(rid,
buf)` never grows the file up to `rid.page_no` — its page-allocation test
is inverted (`rid.page_no < num_pages`), so whenever `rid.page_no` is not
yet a valid page the call throws `PageNotExistError` instead of allocating
pages and placing the record as the claim states. -/
theorem C4_force_insert_fails_beyond_file (s : RmFileState) (rid : Rid)
    (buf : List Int) (h : s.file_hdr.num_pages ≤ rid.page_no) :
    insert_record_at s rid buf = .error (.pageNotExist rid.page_no) := by
  unfold insert_record_at
  have h1 : ¬ rid.page_no < s.file_hdr.num_pages := by omega
  simp only [h1, if_false, ge_iff_le, h, if_true]

/-- Witness for C4: a file with only the header page; force-inserting at
rid (1,0) fails with `PageNotExistError` instead of growing the file. -/
theorem C4_witness :
    rmHeaderOnly.file_hdr.num_pages ≤ (1 : Int) ∧
      insert_record_at rmHeaderOnly ⟨1, 0⟩ [1, 2] = .error (.pageNotExist 1) :=
  ⟨by decide, C4_force_insert_fails_beyond_file rmHeaderOnly ⟨1, 0⟩ [1, 2] (by decide)⟩

/-- Claim C5 (counterexample): `get_record` on a rid whose bitmap bit is
clear does not fail — it returns the slot bytes.  Page 1 of `rmNoRecords`
is all-clear at slot 0, yet `get_record` succeeds. -/
theorem C5_counterexample :
    (rmNoRecords.pages 1).bitmap 0 = false ∧
      get_record rmNoRecords ⟨1, 0⟩ = .ok [9, 9] :=
  ⟨rfl, rfl⟩

/-- Claim C5 (amended): `get_record(rid)` fails only when `rid.page_no` is
not a valid page (`page_no ≥ num_pages`, with `PageNotExistError`); for
every valid page it returns the slot bytes whether or not the slot's
bitmap bit is set. -/
theorem C5_get_record_ignores_bitmap (s : RmFileState) (rid : Rid) :
    (rid.page_no < s.file_hdr.num_pages →
        get_record s rid = .ok ((s.pages rid.page_no).slots rid.slot_no)) ∧
      (s.file_hdr.num_pages ≤ rid.page_no →
        get_record s rid = .error (.pageNotExist rid.page_no)) := by
  constructor
  · intro h
    unfold get_record
    have h1 : ¬ rid.page_no ≥ s.file_hdr.num_pages := by omega
    simp [h1]
  · intro h
    unfold get_record
    simp [h]

/-- Witness for C5 (amended): the live page of `rmNoRecords` returns its
slot bytes even though the bitmap is clear. -/
theorem C5_witness :
    (1 : Int) < rmNoRecords.file_hdr.num_pages ∧
      get_record rmNoRecords ⟨1, 0⟩ = .ok ((rmNoRecords.pages 1).slots 0) :=
  ⟨by decide, (C5_get_record_ignores_bitmap rmNoRecords ⟨1, 0⟩).1 (by decide)⟩

/-- Claim C6 (code bug): when the log buffer lacks space,
`LogManager::add_log_to_buffer` does not flush and retry — it drops the
record and returns `INVALID_LSN`, leaving the whole log-manager state
(buffer, lsn counters, disk log) unchanged. -/
theorem C6_add_log_drops_record_when_full (s : LogManagerState)
    (r : LogRecord) (h : s.log_buffer.is_full r.log_tot_len = true) :
    add_log_to_buffer s r = (INVALID_LSN, s) := by
  unfold add_log_to_buffer
  simp [h]

/-- Witness for C6: a full buffer; the 40-byte record is dropped with
`INVALID_LSN` returned. -/
theorem C6_witness :
    c6Log.log_buffer.is_full c6Rec.log_tot_len = true ∧
      add_log_to_buffer c6Log c6Rec = (INVALID_LSN, c6Log) :=
  ⟨by decide, C6_add_log_drops_record_when_full c6Log c6Rec (by decide)⟩

/-- Claim C8 (code bug): the analyze pass stops at the first record that
is neither BEGIN, COMMIT nor INSERT, because the ABORT / UPDATE / DELETE
casts are never attempted.  On the log `[BEGIN τ0, ABORT τ0]` the pass
stops before the ABORT record: transaction 0 is still in the active map
and the ABORT record is missing from the ordered log list, although the
input had not reached end of file and the record was not truncated. -/
theorem C8_analyze_stops_at_abort :
    analyze [c8Begin, c8Abort] =
        { active_txns := [(0, 0)], log_recs := [c8Begin] } ∧
      c8Abort.log_type = .abort := by
  constructor
  · rfl
  · rfl

/-- Claim C7 (counterexample): the table lock the portal takes when
opening a sequential scan is `lock_shared_on_table` — SHARED, not
INTENTION_SHARED as the claim states (the IS lock is taken only on the
index-scan branch). -/
theorem C7_counterexample :
    portal_scan_table_lock .T_SeqScan 3 =
        { mode := .SHARED, id := tableLockId 3 } ∧
      (portal_scan_table_lock .T_SeqScan 3).mode ≠ .INTENTION_SHARED := by
  constructor
  · rfl
  · decide

theorem ltFind_cons (pid : LockDataId) (pq : LockRequestQueue)
    (rest : LockTable) (id' : LockDataId) :
    ltFind ((pid, pq) :: rest) id' =
      if pid = id' then some pq else ltFind rest id' := by
  unfold ltFind
  by_cases h : pid = id'
  · rw [List.find?_cons_of_pos _ (by simpa using h), if_pos h]
    rfl
  · rw [List.find?_cons_of_neg _ (by simpa using h), if_neg h]

theorem ltFind_ltSet (lt : LockTable) (id : LockDataId) (q : LockRequestQueue)
    (id' : LockDataId) :
    ltFind (ltSet lt id q) id' = if id' = id then some q else ltFind lt id' := by
  induction lt with
  | nil =>
      rw [show ltSet [] id q = [(id, q)] from rfl, ltFind_cons]
      by_cases h : id' = id
      · rw [if_pos h.symm, if_pos h]
      · rw [if_neg (fun hc => h hc.symm), if_neg h]
  | cons p rest ih =>
      obtain ⟨pid, pq⟩ := p
      by_cases hp : pid = id
      · subst hp
        rw [show ltSet ((pid, pq) :: rest) pid q = (pid, q) :: rest from by
          simp [ltSet]]
        rw [ltFind_cons, ltFind_cons]
        by_cases h : id' = pid
        · rw [if_pos h.symm, if_pos h]
        · rw [if_neg (fun hc => h hc.symm), if_neg h,
            if_neg (fun hc => h hc.symm)]
      · rw [show ltSet ((pid, pq) :: rest) id q = (pid, pq) :: ltSet rest id q from by
          simp [ltSet, hp]]
        rw [ltFind_cons, ltFind_cons, ih]
        by_cases h : pid = id'
        · have h2 : ¬ id' = id := fun hc => hp (h.trans hc)
          rw [if_pos h, if_neg h2, if_pos h]
        · rw [if_neg h, if_neg h]

theorem ltGet_ltSet (lt : LockTable) (id : LockDataId) (q : LockRequestQueue)
    (id' : LockDataId) :
    ltGet (ltSet lt id q) id' = if id' = id then q else ltGet lt id' := by
  unfold ltGet
  rw [ltFind_ltSet]
  by_cases h : id' = id <;> simp [h]

/-- Claim C9: `LockManager::unlock` returns `true` and sets the
transaction SHRINKING unconditionally; when the transaction holds no
request in that id's queue, every queue's contents and group mode are left
unchanged (the id's queue is observably the same default-or-stored
queue). -/
theorem C9_unlock_unconditional (lt : LockTable) (txn : Transaction)
    (id : LockDataId) :
    (unlock lt txn id).1 = true ∧
      (unlock lt txn id).2.2 = { txn with state := .SHRINKING } ∧
      ((∀ req ∈ (ltGet lt id).request_queue, req.txn_id ≠ txn.txn_id) →
        ∀ id', ltGet (unlock lt txn id).2.1 id' = ltGet lt id') := by
  refine ⟨?_, ?_, ?_⟩
  · unfold unlock
    rcases h : (ltGet lt id).request_queue.find?
        (fun r => r.txn_id = txn.txn_id) with _ | e <;> simp [h]
  · unfold unlock
    rcases h : (ltGet lt id).request_queue.find?
        (fun r => r.txn_id = txn.txn_id) with _ | e <;> simp [h]
  · intro hno id'
    have hfind : (ltGet lt id).request_queue.find?
        (fun r => r.txn_id = txn.txn_id) = none := by
      rw [List.find?_eq_none]
      intro r hr
      simpa using hno r hr
    simp only [unlock, hfind]
    rw [ltGet_ltSet]
    by_cases h : id' = id
    · subst h; simp
    · simp [h]

/-- Witness for C9: transaction 9 holds nothing in the `c2Id` queue; the
unlock still returns `true`, sets it SHRINKING, and changes no queue. -/
theorem C9_witness :
    (∀ req ∈ (ltGet c2Table c2Id).request_queue, req.txn_id ≠ c9Txn.txn_id) ∧
      (unlock c2Table c9Txn c2Id).1 = true ∧
      (unlock c2Table c9Txn c2Id).2.2 = { c9Txn with state := .SHRINKING } ∧
      ∀ id', ltGet (unlock c2Table c9Txn c2Id).2.1 id' = ltGet c2Table id' :=
  ⟨by decide,
    (C9_unlock_unconditional c2Table c9Txn c2Id).1,
    (C9_unlock_unconditional c2Table c9Txn c2Id).2.1,
    (C9_unlock_unconditional c2Table c9Txn c2Id).2.2 (by decide)⟩

/-- Claim C2: a lock request that conflicts with the queue's group mode
(and whose transaction is not already in the queue) is aborted with the
deadlock-prevention error exactly when the requester's txn id is greater
than the queue head's — without enqueueing anything; otherwise the
requester reaches the condition-variable wait, and is not aborted. -/
theorem C2_wound_wait (lt : LockTable) (txn : Transaction) (id : LockDataId)
    (mode : LockMode) (q : LockRequestQueue) (front : LockRequest)
    (hmem : id ∉ txn.lock_set) (hq : ltFind lt id = some q)
    (hconf : (check q.group_lock_mode mode).1 = false)
    (hfront : q.request_queue.head? = some front) :
    (txn.txn_id > front.txn_id →
        lock_general lt txn id mode =
          (.deadlockAbort, lt, { txn with state := .GROWING })) ∧
      (txn.txn_id ≤ front.txn_id →
        lock_general lt txn id mode =
          (.waiting, lt, { txn with state := .GROWING })) := by
  constructor
  · intro h
    simp [lock_general, lock_general_tail, hmem, hq, hconf, hfront, h]
  · intro h
    have h2 : ¬ txn.txn_id > front.txn_id := by omega
    simp [lock_general, lock_general_tail, hmem, hq, hconf, hfront, h2]

/-- Witness for C2: against a queue headed by transaction 3 holding X,
requester 5 (younger) is aborted by deadlock prevention and requester 2
(older) waits. -/
theorem C2_witness :
    c2Id ∉ c2TxnYoung.lock_set ∧
      ltFind c2Table c2Id = some c2Queue ∧
      (check c2Queue.group_lock_mode .SHARED).1 = false ∧
      c2Queue.request_queue.head? =
        some { txn_id := 3, lock_mode := .EXLUCSIVE, granted := true } ∧
      lock_general c2Table c2TxnYoung c2Id .SHARED =
        (.deadlockAbort, c2Table, { c2TxnYoung with state := .GROWING }) ∧
      lock_general c2Table c2TxnOld c2Id .SHARED =
        (.waiting, c2Table, { c2TxnOld with state := .GROWING }) :=
  ⟨by decide, by decide, by decide, by decide,
    (C2_wound_wait c2Table c2TxnYoung c2Id .SHARED c2Queue
        { txn_id := 3, lock_mode := .EXLUCSIVE, granted := true }
        (by decide) (by decide) (by decide) (by decide)).1 (by decide),
    (C2_wound_wait c2Table c2TxnOld c2Id .SHARED c2Queue
        { txn_id := 3, lock_mode := .EXLUCSIVE, granted := true }
        (by decide) (by decide) (by decide) (by decide)).2 (by decide)⟩

theorem unlock_txn_id (lt : LockTable) (txn : Transaction) (id : LockDataId) :
    (unlock lt txn id).2.2.txn_id = txn.txn_id := by
  unfold unlock
  rcases h : (ltGet lt id).request_queue.find?
      (fun r => r.txn_id = txn.txn_id) with _ | e <;> simp [h]

theorem commit_fold_txn_id (locks : List LockDataId) (lt : LockTable)
    (txn : Transaction) :
    (locks.foldl commit_unlock_step (lt, txn)).2.txn_id = txn.txn_id := by
  induction locks generalizing lt txn with
  | nil => rfl
  | cons l ls ih =>
      simp only [List.foldl_cons]
      rw [show commit_unlock_step (lt, txn) l =
          ((unlock lt txn l).2.1, (unlock lt txn l).2.2) from rfl]
      rw [ih]
      exact unlock_txn_id lt txn l

/-- Claim C1 (code bug): `TransactionManager::commit` acknowledges the
commit (state COMMITTED) with the COMMIT record appended only to the
in-memory log buffer — the on-disk log is unchanged, so the record is not
flushed before the commit returns. -/
theorem C1_commit_acknowledged_without_flush (txn : Transaction)
    (lt : LockTable) (log : LogManagerState)
    (h : log.log_buffer.is_full LOG_HEADER_SIZE = false) :
    ((commit txn lt log).2.2).disk_log = log.disk_log ∧
      ((commit txn lt log).2.2).log_buffer.records =
        log.log_buffer.records ++
          [{ CommitLogRecord txn.txn_id with lsn := log.global_lsn }] ∧
      (commit txn lt log).1.state = .COMMITTED := by
  have hfold := commit_fold_txn_id txn.lock_set lt { txn with write_set := [] }
  rcases he : List.foldl commit_unlock_step (lt, { txn with write_set := [] })
      txn.lock_set with ⟨lt2, txn2⟩
  have htid : txn2.txn_id = txn.txn_id := by rw [he] at hfold; exact hfold
  have hful : ∀ t : Int,
      log.log_buffer.is_full (CommitLogRecord t).log_tot_len = false :=
    fun _ => h
  simp only [commit, he, add_log_to_buffer, hful, Bool.false_eq_true,
    not_false_eq_true, if_true, htid]
  exact ⟨trivial, trivial, trivial⟩

/-- Witness for C1: committing transaction 7 against an empty log buffer
leaves the disk log empty and the COMMIT record in the buffer while the
transaction is already COMMITTED. -/
theorem C1_witness :
    c1Log.log_buffer.is_full LOG_HEADER_SIZE = false ∧
      ((commit c1Txn [] c1Log).2.2).disk_log = c1Log.disk_log ∧
      ((commit c1Txn [] c1Log).2.2).log_buffer.records =
        c1Log.log_buffer.records ++
          [{ CommitLogRecord c1Txn.txn_id with lsn := c1Log.global_lsn }] ∧
      (commit c1Txn [] c1Log).1.state = .COMMITTED :=
  ⟨by decide,
    (C1_commit_acknowledged_without_flush c1Txn [] c1Log (by decide)).1,
    (C1_commit_acknowledged_without_flush c1Txn [] c1Log (by decide)).2.1,
    (C1_commit_acknowledged_without_flush c1Txn [] c1Log (by decide)).2.2⟩

theorem bsearch_go_le (key : Key) (ks : List Key) :
    ∀ (fuel left right : Nat), left ≤ right →
      bsearch_go key ks fuel left right ≤ right := by
  intro fuel
  induction fuel with
  | zero => intro l r h; simpa [bsearch_go] using h
  | succ n ih =>
      intro l r h
      simp only [bsearch_go]
      split
      · next hlr =>
          split
          · exact ih _ _ (by omega)
          · exact le_trans (ih _ _ (by omega)) (by omega)
      · exact h

theorem lower_bound_le (node : IxNode) (key : Key) :
    node.lower_bound key ≤ node.keys.length :=
  bsearch_go_le key node.keys node.keys.length 0 node.keys.length (by omega)

/-- Claim C3: inserting a key already present in the B+-tree (present in
the sense of the tree's own lookup, `get_value`) raises the
unique-constraint error and returns with the tree state completely
unchanged — no node and no file-header field is modified. -/
theorem C3_duplicate_insert_rejected (s : IxState) (key : Key) (value : Rid)
    (fuel : Nat) (h : get_value s key fuel = some true) :
    insert_entry s key value fuel = some (.error .uniqueConstraint, s) := by
  unfold get_value at h
  rcases hf : find_leaf_page s key fuel with _ | leafp
  · rw [hf] at h; simp at h
  · rw [hf] at h
    simp only [Option.map_some', Option.some.injEq] at h
    have hl : ((s.nodes leafp).leaf_lookup key).isSome = true := by
      rw [h]
    unfold IxNode.leaf_lookup at hl
    by_cases hc : (s.nodes leafp).lower_bound key = (s.nodes leafp).keys.length ∨
        ix_compare key ((s.nodes leafp).keyAt ((s.nodes leafp).lower_bound key)) ≠ 0
    · simp only [hc, if_true] at hl
      simp at hl
    · push_neg at hc
      obtain ⟨hne, hcomp⟩ := hc
      have hlt : (s.nodes leafp).lower_bound key < (s.nodes leafp).keys.length :=
        lt_of_le_of_ne (lower_bound_le _ _) hne
      have hins : (s.nodes leafp).insert key value = .error .uniqueConstraint := by
        unfold IxNode.insert
        simp [hlt, hcomp]
      unfold insert_entry
      rw [hf]
      simp only [hins]

/-- Witness for C3: the single-leaf tree containing key `[5]`; looking it
up succeeds, and re-inserting it fails with the unique-constraint error
leaving the state untouched. -/
theorem C3_witness :
    get_value ixOneLeaf [5] 1 = some true ∧
      insert_entry ixOneLeaf [5] ⟨8, 8⟩ 1 =
        some (.error .uniqueConstraint, ixOneLeaf) :=
  ⟨rfl, C3_duplicate_insert_rejected ixOneLeaf [5] ⟨8, 8⟩ 1 rfl⟩

theorem next_bit_go_spec (bm : Int → Bool) (max : Int) :
    ∀ (fuel : Nat) (i : Int), (max - i).toNat ≤ fuel →
      (next_bit_go bm max fuel i = max ∧
          ∀ j, i ≤ j → j < max → bm j = false) ∨
        (i ≤ next_bit_go bm max fuel i ∧ next_bit_go bm max fuel i < max ∧
          bm (next_bit_go bm max fuel i) = true ∧
          ∀ j, i ≤ j → j < next_bit_go bm max fuel i → bm j = false) := by
  intro fuel
  induction fuel with
  | zero =>
      intro i hfu
      left
      exact ⟨rfl, fun j h1 h2 => absurd h2 (by omega)⟩
  | succ n ih =>
      intro i hfu
      simp only [next_bit_go]
      by_cases hi : i < max
      · rw [if_pos hi]
        by_cases hb : bm i
        · rw [if_pos hb]
          right
          exact ⟨le_refl i, hi, hb, fun j h1 h2 => absurd h2 (by omega)⟩
        · rw [if_neg hb]
          have hfu' : (max - (i + 1)).toNat ≤ n := by omega
          rcases ih (i + 1) hfu' with ⟨hmax, hnone⟩ | ⟨hge, hlt, hbit, hmin⟩
          · left
            refine ⟨hmax, fun j h1 h2 => ?_⟩
            rcases eq_or_lt_of_le h1 with h | h
            · rw [← h]; exact Bool.eq_false_iff.mpr hb
            · exact hnone j (by omega) h2
          · right
            refine ⟨by omega, hlt, hbit, fun j h1 h2 => ?_⟩
            rcases eq_or_lt_of_le h1 with h | h
            · rw [← h]; exact Bool.eq_false_iff.mpr hb
            · exact hmin j (by omega) h2
      · rw [if_neg hi]
        left
        exact ⟨rfl, fun j h1 h2 => absurd h2 (by omega)⟩

theorem next_bit_spec (bm : Int → Bool) (max curr : Int) :
    (next_bit bm max curr = max ∧ ∀ j, curr < j → j < max → bm j = false) ∨
      (curr < next_bit bm max curr ∧ next_bit bm max curr < max ∧
        bm (next_bit bm max curr) = true ∧
        ∀ j, curr < j → j < next_bit bm max curr → bm j = false) := by
  unfold next_bit
  rcases next_bit_go_spec bm max (max - (curr + 1)).toNat (curr + 1) (le_refl _)
    with ⟨hmax, hnone⟩ | ⟨hge, hlt, hbit, hmin⟩
  · exact Or.inl ⟨hmax, fun j h1 h2 => hnone j (by omega) h2⟩
  · exact Or.inr ⟨by omega, hlt, hbit, fun j h1 h2 => hmin j (by omega) h2⟩

theorem scanGo_correct (s : RmFileState) :
    ∀ (fuel : Nat) (page slot : Int),
      (s.file_hdr.num_pages - page).toNat ≤ fuel → -1 ≤ slot →
      ((scanGo s fuel page slot).page_no = RM_NO_PAGE ∧
          ∀ p sl, scanVisits page slot p sl → ¬ pageLive s p sl) ∨
        (scanVisits page slot (scanGo s fuel page slot).page_no
            (scanGo s fuel page slot).slot_no ∧
          pageLive s (scanGo s fuel page slot).page_no
            (scanGo s fuel page slot).slot_no ∧
          ∀ p sl, scanVisits page slot p sl → pageLive s p sl →
            ((scanGo s fuel page slot).page_no < p ∨
              ((scanGo s fuel page slot).page_no = p ∧
                (scanGo s fuel page slot).slot_no ≤ sl))) := by
  intro fuel
  induction fuel with
  | zero =>
      intro page slot hfu hsl
      left
      refine ⟨rfl, fun p sl hv hl => ?_⟩
      rcases hv with ⟨hp, _⟩ | hp
      · exact absurd hl.1 (by omega)
      · exact absurd hl.1 (by omega)
  | succ n ih =>
      intro page slot hfu hsl
      simp only [scanGo]
      by_cases hpage : page < s.file_hdr.num_pages
      · rw [if_pos hpage]
        rcases next_bit_spec (s.pages page).bitmap
            s.file_hdr.num_records_per_page slot with
          ⟨hmax, hnone⟩ | ⟨hgt, hlt, hbm, hmin⟩
        · rw [if_neg (by omega)]
          have hfu' : (s.file_hdr.num_pages - (page + 1)).toNat ≤ n := by omega
          rcases ih (page + 1) (-1) hfu' (by omega) with
            ⟨hno, hall⟩ | ⟨hvis, hlive, hminL⟩
          · left
            refine ⟨hno, fun p sl hv hl => ?_⟩
            rcases hv with ⟨hpeq, hslt⟩ | hplt
            · subst hpeq
              have := hnone sl hslt hl.2.2.1
              rw [hl.2.2.2] at this
              exact absurd this (by simp)
            · refine hall p sl ?_ hl
              by_cases hpp : p = page + 1
              · exact Or.inl ⟨hpp, by omega⟩
              · exact Or.inr (by omega)
          · right
            have hpgt : page < (scanGo s n (page + 1) (-1)).page_no := by
              rcases hvis with ⟨hre, _⟩ | hgt
              · omega
              · omega
            refine ⟨Or.inr hpgt, hlive, fun p sl hv hl => ?_⟩
            rcases hv with ⟨hpeq, hslt⟩ | hplt
            · subst hpeq
              have := hnone sl hslt hl.2.2.1
              rw [hl.2.2.2] at this
              exact absurd this (by simp)
            · refine hminL p sl ?_ hl
              by_cases hpp : p = page + 1
              · exact Or.inl ⟨hpp, by omega⟩
              · exact Or.inr (by omega)
        · rw [if_pos hlt]
          have hs0 : (0 : Int) ≤ next_bit (s.pages page).bitmap
              s.file_hdr.num_records_per_page slot := by omega
          right
          refine ⟨Or.inl ⟨rfl, hgt⟩, ⟨hpage, hs0, hlt, hbm⟩,
            fun p sl hv hl => ?_⟩
          rcases hv with ⟨hpeq, hslt⟩ | hplt
          · subst hpeq
            right
            refine ⟨rfl, ?_⟩
            by_contra hcon
            push_neg at hcon
            have := hmin sl hslt hcon
            rw [hl.2.2.2] at this
            exact absurd this (by simp)
          · exact Or.inl hplt
      · rw [if_neg hpage]
        left
        refine ⟨rfl, fun p sl hv hl => ?_⟩
        rcases hv with ⟨hp, _⟩ | hp
        · exact absurd hl.1 (by omega)
        · exact absurd hl.1 (by omega)

theorem make_eq_scanGo (s : RmFileState) :
    RmScan.make s =
      scanGo s (s.file_hdr.num_pages - 1).toNat RM_FIRST_RECORD_PAGE (-1) := by
  unfold RmScan.make RmScan.next RmScan.is_end scanFrom RM_FIRST_RECORD_PAGE
  norm_num [RM_NO_PAGE]

/-- Claim C10: a record-file scan constructed on a file with no live
records is immediately at its end and stays there (no record is ever
emitted); on a file with a live record the constructor lands on a live
rid that is least in page-then-slot order. -/
theorem C10_scan_initial_position (s : RmFileState) :
    ((∀ p sl, ¬ isLiveRid s p sl) →
        RmScan.is_end (RmScan.make s) = true ∧
          RmScan.next s (RmScan.make s) = RmScan.make s) ∧
      (∀ p sl, isLiveRid s p sl →
        isLiveRid s (RmScan.make s).page_no (RmScan.make s).slot_no ∧
          ((RmScan.make s).page_no < p ∨
            ((RmScan.make s).page_no = p ∧ (RmScan.make s).slot_no ≤ sl))) := by
  have key := scanGo_correct s (s.file_hdr.num_pages - 1).toNat
    RM_FIRST_RECORD_PAGE (-1) (by simp [RM_FIRST_RECORD_PAGE]) (by omega)
  rw [← make_eq_scanGo] at key
  constructor
  · intro hno
    rcases key with ⟨hend, _⟩ | ⟨hvis, hlive, _⟩
    · have hendb : RmScan.is_end (RmScan.make s) = true := by
        simp [RmScan.is_end, hend]
      refine ⟨hendb, ?_⟩
      unfold RmScan.next
      rw [if_pos hendb]
    · exfalso
      refine hno (RmScan.make s).page_no (RmScan.make s).slot_no ?_
      have h1 : RM_FIRST_RECORD_PAGE ≤ (RmScan.make s).page_no := by
        rcases hvis with ⟨he, _⟩ | hgt
        · omega
        · omega
      exact ⟨h1, hlive.1, hlive.2.1, hlive.2.2.1, hlive.2.2.2⟩
  · intro p sl hl
    obtain ⟨hp1, hplt, hsl0, hslp, hbm⟩ := hl
    rcases key with ⟨_, hall⟩ | ⟨hvis, hlive, hminL⟩
    · exfalso
      refine hall p sl ?_ ⟨hplt, hsl0, hslp, hbm⟩
      by_cases hpp : p = RM_FIRST_RECORD_PAGE
      · exact Or.inl ⟨hpp, by omega⟩
      · exact Or.inr (by simp only [RM_FIRST_RECORD_PAGE] at hp1 hpp ⊢; omega)
    · have h1 : RM_FIRST_RECORD_PAGE ≤ (RmScan.make s).page_no := by
        rcases hvis with ⟨he, _⟩ | hgt
        · omega
        · omega
      refine ⟨⟨h1, hlive.1, hlive.2.1, hlive.2.2.1, hlive.2.2.2⟩, ?_⟩
      refine hminL p sl ?_ ⟨hplt, hsl0, hslp, hbm⟩
      by_cases hpp : p = RM_FIRST_RECORD_PAGE
      · exact Or.inl ⟨hpp, by omega⟩
      · exact Or.inr (by simp only [RM_FIRST_RECORD_PAGE] at hp1 hpp ⊢; omega)

/-- Witness for C10: on the file whose single live record is rid (1,2),
the constructed scan is positioned on a live, lexicographically least
rid. -/
theorem C10_witness :
    isLiveRid rmOneRecord 1 2 ∧
      isLiveRid rmOneRecord (RmScan.make rmOneRecord).page_no
        (RmScan.make rmOneRecord).slot_no ∧
      ((RmScan.make rmOneRecord).page_no < 1 ∨
        ((RmScan.make rmOneRecord).page_no = 1 ∧
          (RmScan.make rmOneRecord).slot_no ≤ 2)) :=
  ⟨by decide,
    ((C10_scan_initial_position rmOneRecord).2 1 2 (by decide)).1,
    ((C10_scan_initial_position rmOneRecord).2 1 2 (by decide)).2⟩

theorem beginTupleGo_lock_before_emit (s : RmFileState) (fd : Int)
    (cond : List Int → Bool) :
    ∀ (fuel : Nat) (start rid : Rid) (locks : List LockAction),
      beginTupleGo s fd cond fuel start = some (rid, locks) →
      RmScan.is_end rid = false →
      locks = [{ mode := .SHARED, id := recordLockId fd rid }] := by
  intro fuel
  induction fuel with
  | zero =>
      intro start rid locks h hend
      simp [beginTupleGo] at h
  | succ n ih =>
      intro start rid locks h hend
      simp only [beginTupleGo] at h
      by_cases he : RmScan.is_end start
      · rw [if_pos he] at h
        simp only [Option.some.injEq, Prod.mk.injEq] at h
        rw [← h.1] at hend
        rw [he] at hend
        exact absurd hend (by simp)
      · rw [if_neg he] at h
        rcases hg : get_record s start with e | rec
        · simp only [hg] at h
          exact absurd h (by simp)
        · simp only [hg] at h
          by_cases hc : cond rec
          · rw [if_pos hc] at h
            simp only [Option.some.injEq, Prod.mk.injEq] at h
            rw [← h.1, ← h.2]
          · rw [if_neg hc] at h
            exact ih (RmScan.next s start) rid locks h hend

/-- Claim C7 (amended): when the portal opens a sequential scan it takes a
SHARED (not intention-shared) table lock; each emitted row is additionally
protected by a shared record lock on the emitted rid, acquired before the
row is emitted. -/
theorem C7_seqscan_locks (fd : Int) :
    portal_scan_table_lock .T_SeqScan fd =
        { mode := .SHARED, id := tableLockId fd } ∧
      ∀ (s : RmFileState) (cond : List Int → Bool) (fuel : Nat) (rid : Rid)
          (locks : List LockAction),
        beginTuple s fd cond fuel = some (rid, locks) →
        RmScan.is_end rid = false →
        locks = [{ mode := .SHARED, id := recordLockId fd rid }] := by
  refine ⟨rfl, fun s cond fuel rid locks h hend => ?_⟩
  exact beginTupleGo_lock_before_emit s fd cond fuel (RmScan.make s) rid locks h hend

/-- Witness for C7 (amended): opening the scan over `rmOneRecord` with a
true filter emits rid (1,2) with exactly the shared record lock on it. -/
theorem C7_witness :
    beginTuple rmOneRecord 3 (fun _ => true) 1 =
        some (⟨1, 2⟩, [{ mode := .SHARED, id := recordLockId 3 ⟨1, 2⟩ }]) ∧
      RmScan.is_end ⟨1, 2⟩ = false ∧
      ([{ mode := LockMode.SHARED, id := recordLockId 3 ⟨1, 2⟩ }] : List LockAction) =
        [{ mode := LockMode.SHARED, id := recordLockId 3 ⟨1, 2⟩ }] :=
  ⟨by decide, by decide,
    (C7_seqscan_locks 3).2 rmOneRecord (fun _ => true) 1 ⟨1, 2⟩
      [{ mode := .SHARED, id := recordLockId 3 ⟨1, 2⟩ }] (by decide) (by decide)⟩

end Rucbase
